import Mathlib

/-!
Verification of the storage-substrate core of a BusTub-style teaching DBMS:
the LRU-K replacer (`src/buffer/lru_k_replacer.cpp`), the buffer pool
manager (`src/buffer/buffer_pool_manager.cpp`) and the persistent
copy-on-write trie (`src/primer/trie.cpp`).

The C++ code is shallowly embedded: each member function becomes a pure
Lean function on an explicit state record.  Frame identifiers and page
identifiers are `Int` (the C++ `frame_id_t` / `page_id_t` are 32-bit ints;
no arithmetic here can overflow 32 bits).  The `std::list` rings become
`List Int` with front at the head; the `std::unordered_map`/`std::map`
key sets become `List Int` (only membership, insertion and erasure of
keys are observable — the stored iterators are only ever used to erase
the corresponding list element, which we render as erase-by-value).
A thrown exception or an undefined-behaviour crash is rendered as `none`
of an `Option`-returning function.  Disk I/O has no observable effect on
the modelled state beyond clearing dirty flags, so the disk manager is
not modelled.
-/

/-- Pointwise update of a function, mirroring in-place array/map writes. -/
def updFn {α : Type} (g : Int → α) (i : Int) (v : α) : Int → α :=
  fun j => if j = i then v else g j

/-- State of `LRUKReplacer`: the two rings (`history_list_`, `cache_list_`,
front of the C++ `std::list` at the head), the key sets of the two
iterator maps, per-frame `use_count_` and `is_accessible_`, and
`curr_size_`.  `replacerSize` is `replacer_size_` (the constructor's
`num_frames`); the code treats it as the maximal frame id. -/
structure RState where
  replacerSize : Nat
  k : Nat
  historyList : List Int
  historyMap : List Int
  cacheList : List Int
  cacheMap : List Int
  useCount : Int → Nat
  isAccessible : Int → Bool
  currSize : Nat

/-- Embeds `LRUKReplacer::LRUKReplacer(num_frames, k)`: empty rings, all counters
zero, nothing accessible. -/
def initR (numFrames k : Nat) : RState :=
  { replacerSize := numFrames
    k := k
    historyList := []
    historyMap := []
    cacheList := []
    cacheMap := []
    useCount := fun _ => 0
    isAccessible := fun _ => false
    currSize := 0 }

/-- Models `std::map::operator[]` key insertion: add the key if absent (assigning
to an existing key leaves the key set unchanged). -/
def insertKey (m : List Int) (f : Int) : List Int :=
  if m.contains f then m else f :: m

/-- The scan `it = list.end(); while (it != begin) { --it; if accessible
break; }` of `LRUKReplacer::Evict`: first accessible element counting from
the tail of the list. -/
def findLastAcc (acc : Int → Bool) : List Int → Option Int
  | [] => none
  | x :: xs =>
    match findLastAcc acc xs with
    | some y => some y
    | none => if acc x then some x else none

/-- Embeds `LRUKReplacer::Evict`: if both maps are empty, fail; otherwise scan the
history ring from the tail for an accessible frame, then the cache ring;
on success erase the victim from its ring and map, zero its use count,
clear its accessible bit and decrement `curr_size_`. -/
def evictR (s : RState) : Option Int × RState :=
  if s.historyMap.isEmpty && s.cacheMap.isEmpty then (none, s)
  else
    match findLastAcc s.isAccessible s.historyList with
    | some f =>
      (some f,
        { s with
          historyMap := s.historyMap.erase f
          useCount := updFn s.useCount f 0
          isAccessible := updFn s.isAccessible f false
          currSize := s.currSize - 1
          historyList := s.historyList.erase f })
    | none =>
      match findLastAcc s.isAccessible s.cacheList with
      | some f =>
        (some f,
          { s with
            useCount := updFn s.useCount f 0
            currSize := s.currSize - 1
            isAccessible := updFn s.isAccessible f false
            cacheList := s.cacheList.erase f
            cacheMap := s.cacheMap.erase f })
      | none => (none, s)

/-- Embeds `LRUKReplacer::RecordAccess`: throws (`none`) when
`frame_id > replacer_size_`; otherwise increments `use_count_[frame_id]`.
If the count reaches exactly `k_`, the frame is moved from the history ring
to the front of the cache ring.  If the count exceeds `k_`, the code erases
the frame from the cache list when `cache_map_` knows it — and does NOT
re-insert it, nor does it erase the `cache_map_` key (the stored iterator
dangles from here on).  Below `k_`, the frame is pushed at the front of the
history ring on its first access only. -/
def recordAccessR (s : RState) (f : Int) : Option RState :=
  if f > (s.replacerSize : Int) then none
  else
    let uc := s.useCount f + 1
    let s1 := { s with useCount := updFn s.useCount f uc }
    if uc = s1.k then
      let s2 :=
        if s1.historyMap.contains f then
          { s1 with historyList := s1.historyList.erase f }
        else s1
      some { s2 with
              historyMap := s2.historyMap.erase f
              cacheList := f :: s2.cacheList
              cacheMap := insertKey s2.cacheMap f }
    else if uc > s1.k then
      some (if s1.cacheMap.contains f then
              { s1 with cacheList := s1.cacheList.erase f }
            else s1)
    else
      some (if s1.historyMap.contains f then s1
            else { s1 with
                    historyList := f :: s1.historyList
                    historyMap := insertKey s1.historyMap f })

/-- Embeds `LRUKReplacer::SetEvictable`: throws (`none`) when
`frame_id > replacer_size_`; no-op when the frame was never accessed;
otherwise adjusts `curr_size_` on an actual flag change and stores the
flag. -/
def setEvictableR (s : RState) (f : Int) (e : Bool) : Option RState :=
  if f > (s.replacerSize : Int) then none
  else
    some <|
      if s.useCount f = 0 then s
      else
        let cs :=
          if !s.isAccessible f && e then s.currSize + 1
          else if s.isAccessible f && !e then s.currSize - 1
          else s.currSize
        { s with currSize := cs, isAccessible := updFn s.isAccessible f e }

/-- Embeds `LRUKReplacer::Remove`: throws (`none`) when
`frame_id > replacer_size_`; no-op when the frame is not accessible;
otherwise erases the frame from the history ring (when `use_count_ < k_`)
or the cache ring, zeroes its count, clears the flag and decrements
`curr_size_`. -/
def removeR (s : RState) (f : Int) : Option RState :=
  if f > (s.replacerSize : Int) then none
  else
    some <|
      if !s.isAccessible f then s
      else
        let s1 :=
          if s.useCount f < s.k then
            { s with
              historyList := s.historyList.erase f
              historyMap := s.historyMap.erase f }
          else
            { s with
              cacheList := s.cacheList.erase f
              cacheMap := s.cacheMap.erase f }
        { s1 with
          useCount := updFn s1.useCount f 0
          isAccessible := updFn s1.isAccessible f false
          currSize := s1.currSize - 1 }

/-- Frame 1 accessed three times with K = 2: the third access takes the
`use_count_ > k_` branch of `RecordAccess`, which erases the frame from the
cache list and never re-inserts it; then the frame is marked evictable. -/
def runC1 : Option RState := do
  let s1 ← recordAccessR (initR 1 2) 1
  let s2 ← recordAccessR s1 1
  let s3 ← recordAccessR s2 1
  setEvictableR s3 1 true

/-- Claim C1 (code bug): after a `record_access` on a frame whose
`use_count` is already K = 2, the frame is gone from the cache ring (and
from the history ring) while `cache_map_` still holds its key, so a later
`evict` scan cannot find it even though it is the unique evictable frame
(`curr_size_ = 1`). -/
theorem recordAccess_over_k_drops_frame :
    runC1.map (fun s =>
        (s.cacheList, s.historyList, s.cacheMap, s.currSize,
          s.isAccessible 1, (evictR s).1))
      = some ([], [], [1], 1, true, none) := by
  rfl

/-- Claim C7 counterexample: the replacer is built with `num_frames = 2`,
yet `record_access(2)` is accepted (no exception), refuting "raises for
every `frame_id ≥ N`". -/
theorem recordAccess_at_n_accepted :
    (recordAccessR (initR 2 2) 2).isSome = true := by
  rfl

/-- Claim C7 (amended): each replacer operation raises (returns `none`)
exactly for `frame_id > N`, and accepts every `frame_id ≤ N`, `N` being the
`num_frames` the replacer was constructed with (stored in
`replacer_size_`). -/
theorem replacer_range_check (s : RState) (n : Nat) (e : Bool) :
    (recordAccessR s (n : Int) = none ↔ s.replacerSize < n)
    ∧ (setEvictableR s (n : Int) e = none ↔ s.replacerSize < n)
    ∧ (removeR s (n : Int) = none ↔ s.replacerSize < n) := by
  by_cases h : s.replacerSize < n
  · have h2 : ((n : Int) > (s.replacerSize : Int)) := by exact_mod_cast h
    simp [recordAccessR, setEvictableR, removeR, h2, h]
  · have h2 : ¬ ((n : Int) > (s.replacerSize : Int)) := by
      intro hc
      exact h (by exact_mod_cast hc)
    refine ⟨?_, ?_, ?_⟩
    · simp only [recordAccessR, if_neg h2]
      constructor
      · intro hc
        split at hc
        · exact Option.noConfusion hc
        · split at hc <;> exact Option.noConfusion hc
      · intro hc
        exact absurd hc h
    · simp [setEvictableR, if_neg h2, h]
    · simp [removeR, if_neg h2, h]

/-- A list key set that `contains` an element is not empty. -/
theorem isEmpty_false_of_contains {m : List Int} {f : Int}
    (h : m.contains f = true) : m.isEmpty = false := by
  cases m with
  | nil => simp [List.contains] at h
  | cons a l => rfl

/-- The tail-first scan returns `none` on a list with no accessible
element. -/
theorem findLastAcc_eq_none (acc : Int → Bool) (l : List Int)
    (h : ∀ x ∈ l, acc x = false) : findLastAcc acc l = none := by
  induction l with
  | nil => rfl
  | cons x xs ih =>
    have hx := h x (List.mem_cons_self x xs)
    have hxs := ih (fun y hy => h y (List.mem_cons_of_mem x hy))
    simp [findLastAcc, hxs, hx]

/-- The tail-first scan returns the accessible element that has only
inaccessible elements towards the tail. -/
theorem findLastAcc_append (acc : Int → Bool) (l₁ : List Int) (f : Int)
    (l₂ : List Int) (hf : acc f = true) (h₂ : ∀ x ∈ l₂, acc x = false) :
    findLastAcc acc (l₁ ++ f :: l₂) = some f := by
  induction l₁ with
  | nil => simp [findLastAcc, findLastAcc_eq_none acc l₂ h₂, hf]
  | cons x xs ih => simp [findLastAcc, ih]

/-- Claim C2 counterexample: a reachable state (frame 1 accessed three
times with K = 2, then marked evictable) has an evictable frame
(`curr_size_ = 1`, accessible, `use_count_ = 3 > 0`) and yet `Evict`
returns no victim, refuting the claim as stated for arbitrary replacer
states. -/
theorem evict_misses_evictable_frame :
    runC1.map (fun s =>
        (s.currSize, s.isAccessible 1, s.useCount 1, (evictR s).1))
      = some (1, true, 3, none) := by
  rfl

/-- Claim C2 (amended): in every replacer state whose rings are covered by
their iterator maps, if the history ring, split as `l₁ ++ f :: l₂`, has an
evictable frame `f` followed towards the tail only by non-evictable
frames, `Evict` returns `f` (the evictable history frame with oldest first
access); and when no history-ring frame is evictable, the same tail-first
rule applied to the cache ring determines the victim. -/
theorem evict_scan_order (s : RState)
    (hWFh : s.historyList.all (fun f => s.historyMap.contains f) = true)
    (hWFc : s.cacheList.all (fun f => s.cacheMap.contains f) = true) :
    (∀ l₁ f l₂, s.historyList = l₁ ++ f :: l₂ → s.isAccessible f = true →
        (∀ x ∈ l₂, s.isAccessible x = false) → (evictR s).1 = some f)
    ∧ ((∀ x ∈ s.historyList, s.isAccessible x = false) →
        ∀ l₁ f l₂, s.cacheList = l₁ ++ f :: l₂ → s.isAccessible f = true →
          (∀ x ∈ l₂, s.isAccessible x = false) → (evictR s).1 = some f) := by
  constructor
  · intro l₁ f l₂ hsplit hf h₂
    have hmem : f ∈ s.historyList := by
      rw [hsplit]
      simp
    have hcont : s.historyMap.contains f = true :=
      List.all_eq_true.mp hWFh f hmem
    have hguard : (s.historyMap.isEmpty && s.cacheMap.isEmpty) = false := by
      rw [isEmpty_false_of_contains hcont]
      rfl
    have hfind : findLastAcc s.isAccessible s.historyList = some f := by
      rw [hsplit]
      exact findLastAcc_append s.isAccessible l₁ f l₂ hf h₂
    simp [evictR, hguard, hfind]
  · intro hnone l₁ f l₂ hsplit hf h₂
    have hmem : f ∈ s.cacheList := by
      rw [hsplit]
      simp
    have hcont : s.cacheMap.contains f = true :=
      List.all_eq_true.mp hWFc f hmem
    have hguard : (s.historyMap.isEmpty && s.cacheMap.isEmpty) = false := by
      rw [isEmpty_false_of_contains hcont]
      simp
    have hhist : findLastAcc s.isAccessible s.historyList = none :=
      findLastAcc_eq_none s.isAccessible s.historyList hnone
    have hfind : findLastAcc s.isAccessible s.cacheList = some f := by
      rw [hsplit]
      exact findLastAcc_append s.isAccessible l₁ f l₂ hf h₂
    simp [evictR, hguard, hhist, hfind]

/-- The replacer state after the S3 access pattern: frames 1, 2, 3 each
accessed once (history ring `[3, 2]` after frame 1 graduates), frame 1
accessed a second time with K = 2 (cache ring `[1]`), all three marked
evictable. -/
def sW : RState :=
  { replacerSize := 3
    k := 2
    historyList := [3, 2]
    historyMap := [3, 2]
    cacheList := [1]
    cacheMap := [1]
    useCount := fun f => if f = 1 then 2 else if f = 2 then 1 else if f = 3 then 1 else 0
    isAccessible := fun f => f == 1 || f == 2 || f == 3
    currSize := 3 }

/-- Witness for `evict_scan_order`: in the S3 state the history ring is
`[3] ++ 2 :: []` with frame 2 evictable, so `Evict` returns frame 2 (the
oldest-by-first-access history frame). -/
theorem evict_scan_order_witness :
    (sW.historyList.all (fun f => sW.historyMap.contains f) = true)
    ∧ (sW.isAccessible 2 = true)
    ∧ (evictR sW).1 = some 2 := by
  refine ⟨by rfl, by rfl, ?_⟩
  exact (evict_scan_order sW (by rfl) (by rfl)).1 [3] 2 [] rfl rfl
    (by intro x hx; simp at hx)

/-!
Persistent trie (`src/primer/trie.cpp`).  A `TrieNode` holds a
`std::map<char, shared_ptr<const TrieNode>>` of children and an
`is_value_node_` flag; `TrieNodeWithValue<T>` additionally holds the
payload.  We embed a node as a children association list (char rendered as
`Nat`; keys unique, order unobserved by any operation here) together with
an optional payload of a fixed type `V`: `value = some v` renders a
`TrieNodeWithValue` whose payload dynamic-cast succeeds, `value = none`
renders a plain `TrieNode`.  `Clone` is the identity copy of a functional
record.  A `Trie` is an optional root (`root_` may be null).
-/

/-- A trie node: association list of children plus optional payload. -/
inductive TNode (V : Type) : Type where
  | mk (children : List (Nat × TNode V)) (value : Option V) : TNode V

/-- The `children_` field. -/
def TNode.children {V : Type} : TNode V → List (Nat × TNode V)
  | .mk c _ => c

/-- The payload (`some` exactly when `is_value_node_` and the cast
succeeds). -/
def TNode.value {V : Type} : TNode V → Option V
  | .mk _ v => v

/-- Models `children_.count(c) / children_.at(c)`: lookup in the children map. -/
def lookupChild {V : Type} : List (Nat × TNode V) → Nat → Option (TNode V)
  | [], _ => none
  | (a, m) :: r, c => if a = c then some m else lookupChild r c

/-- Models `children_[c] = n`: assign through an existing key or insert. -/
def insertChild {V : Type} : List (Nat × TNode V) → Nat → TNode V → List (Nat × TNode V)
  | [], c, n => [(c, n)]
  | (a, m) :: r, c, n => if a = c then (c, n) :: r else (a, m) :: insertChild r c n

/-- Models `children_.erase(c)`. -/
def eraseChild {V : Type} : List (Nat × TNode V) → Nat → List (Nat × TNode V)
  | [], _ => []
  | (a, m) :: r, c => if a = c then r else (a, m) :: eraseChild r c

/-- The loop of `Trie::Get` from a non-null node: follow each character,
fail on a missing child; at the end of the key, return the payload (the
code checks `is_value_node_` and then dynamic-casts, both folded into the
optional payload). -/
def getNode {V : Type} : TNode V → List Nat → Option V
  | n, [] => n.value
  | n, c :: rest =>
    match lookupChild n.children c with
    | none => none
    | some ch => getNode ch rest

/-- Embeds `Trie::Get`: null root means absent. -/
def trieGet {V : Type} (t : Option (TNode V)) (key : List Nat) : Option V :=
  match t with
  | none => none
  | some n => getNode n key

/-- The body of `Trie::Put` from a non-null cloned root, folded into a
recursion on the key: an empty key rebuilds the node as a value node
keeping its children (lines 54-57); at each character the cloned node's
child slot is overwritten with the recursively rebuilt child, a missing
intermediate child starting from a fresh empty `TrieNode` (lines 60-73);
the final character installs a `TrieNodeWithValue` that keeps the previous
terminal's children when present and has none otherwise (lines 75-84) —
which is exactly this recursion applied to the empty key. -/
def putNode {V : Type} : TNode V → List Nat → V → TNode V
  | n, [], v => .mk n.children (some v)
  | n, c :: rest, v =>
    let child :=
      match lookupChild n.children c with
      | some ch => ch
      | none => .mk [] none
    .mk (insertChild n.children c (putNode child rest v)) n.value

/-- Embeds `Trie::Put`: a null root is first replaced by a fresh empty node
(lines 44-47). -/
def triePut {V : Type} (t : Option (TNode V)) (key : List Nat) (v : V) :
    Option (TNode V) :=
  match t with
  | none => some (putNode (.mk [] none) key v)
  | some n => some (putNode n key v)

/-- Embeds `Trie::Dfs` from a non-null node: at the end of the key, drop the node
when childless, else rebuild it valueless keeping its children (lines
90-101); on a present character, recurse into the child, splicing the
rebuilt child back in, or erasing the edge when the child vanished —
propagating the deletion when the node is valueless and now childless
(lines 104-117); a missing character returns the node unchanged (line
120). -/
def dfsNode {V : Type} : TNode V → List Nat → Option (TNode V)
  | root, [] =>
    if root.children.isEmpty then none else some (.mk root.children none)
  | root, c :: rest =>
    match lookupChild root.children c with
    | some child =>
      match dfsNode child rest with
      | some nn => some (.mk (insertChild root.children c nn) root.value)
      | none =>
        let ch := eraseChild root.children c
        if root.value.isNone && ch.isEmpty then none
        else some (.mk ch root.value)
    | none => some root

/-- Embeds `Trie::Remove` calls `Dfs(root_, key, 0)` without a null check:
`Dfs` immediately reads `root->children_`, so a null `root_` is a
null-pointer dereference, rendered as the outer `none`. -/
def trieRemove {V : Type} (t : Option (TNode V)) (key : List Nat) :
    Option (Option (TNode V)) :=
  match t with
  | none => none
  | some root => some (dfsNode root key)

/-- Claim C4 (code bug): `remove` on the empty trie (null `root_`) with
key "a" crashes — `Dfs` dereferences the null root — instead of returning
a trie equivalent to the original. -/
theorem remove_on_empty_trie_crashes :
    trieRemove (V := Nat) none [97] = none := by
  rfl

/-- Assigning a child slot makes lookup of that character return the new
child. -/
theorem lookupChild_insertChild {V : Type} (l : List (Nat × TNode V))
    (c : Nat) (n : TNode V) : lookupChild (insertChild l c n) c = some n := by
  induction l with
  | nil => simp [insertChild, lookupChild]
  | cons p r ih =>
    obtain ⟨a, m⟩ := p
    by_cases h : a = c
    · simp [insertChild, lookupChild, h]
    · simp [insertChild, lookupChild, h, ih]

/-- The rebuilt node of `putNode` carries the value at the key. -/
theorem getNode_putNode {V : Type} (key : List Nat) (n : TNode V) (v : V) :
    getNode (putNode n key v) key = some v := by
  induction key generalizing n with
  | nil => rfl
  | cons c rest ih =>
    simp only [putNode, getNode, TNode.children, lookupChild_insertChild]
    exact ih _

/-- Claim C8: `put` is persistent — `t1 = t0.put(k, v)` is a new trie with
`t1.get(k) = v`, while `t0` is untouched: `Put` clones every node along
the path before mutating it, which the functional embedding renders by
`t0` remaining the very same value, so `t0.get(k)` returns exactly the
pre-existing mapping. -/
theorem trie_put_persistent {V : Type} (t : Option (TNode V))
    (key : List Nat) (v : V) :
    trieGet (triePut t key v) key = some v := by
  cases t with
  | none => exact getNode_putNode key (.mk [] none) v
  | some n => exact getNode_putNode key n v

/-!
Buffer pool manager (`src/buffer/buffer_pool_manager.cpp`).  A frame's
`Page` object carries `page_id_` (`INVALID_PAGE_ID = -1` when free),
`pin_count_` and `is_dirty_`; the byte buffer is never observed by the
properties below and is not modelled, so a disk write only has the effect
of clearing the dirty flag.  `page_table_` is an association list keyed by
page id, `free_list_` a `std::list` (front at the head; frames are taken
from the back and returned at the back).  `next_page_id_` starts at 0.
An exception thrown by a replacer call propagates as the outer `none`.
-/

/-- Metadata of one frame's `Page`. -/
structure Page where
  pageId : Int
  pinCount : Nat
  dirty : Bool

/-- Buffer pool state. -/
structure BPM where
  poolSize : Nat
  pages : Int → Page
  pageTable : List (Int × Int)
  freeList : List Int
  repl : RState
  nextPageId : Int

/-- Embeds `BufferPoolManager::BufferPoolManager`: default pages, empty table,
free list `[0, …, N-1]`, fresh replacer. -/
def initBPM (poolSize k : Nat) : BPM :=
  { poolSize := poolSize
    pages := fun _ => ⟨-1, 0, false⟩
    pageTable := []
    freeList := (List.range poolSize).map (fun i => (i : Int))
    repl := initR poolSize k
    nextPageId := 0 }

/-- Models `page_table_.find`. -/
def lookupP : List (Int × Int) → Int → Option Int
  | [], _ => none
  | (a, b) :: r, k => if a = k then some b else lookupP r k

/-- Models `page_table_[k] = v`. -/
def insertP : List (Int × Int) → Int → Int → List (Int × Int)
  | [], k, v => [(k, v)]
  | (a, b) :: r, k, v => if a = k then (k, v) :: r else (a, b) :: insertP r k v

/-- Models `page_table_.erase(k)`. -/
def eraseP (pt : List (Int × Int)) (k : Int) : List (Int × Int) :=
  pt.filter (fun e => e.1 != k)

/-- The common tail of `NewPage` and the miss path of `FetchPage` once a
frame is in hand: install the page-table mapping, set the frame's
metadata (`pin_count_ = 1`, clean; `ResetMemory`/`ReadPage` unmodelled),
record an access and mark the frame non-evictable. -/
def installPage (s : BPM) (frame pid : Int) : Option BPM :=
  let s1 := { s with
    pageTable := insertP s.pageTable pid frame
    pages := updFn s.pages frame ⟨pid, 1, false⟩ }
  match recordAccessR s1.repl frame with
  | none => none
  | some r1 =>
    match setEvictableR r1 frame false with
    | none => none
    | some r2 => some { s1 with repl := r2 }

/-- Embeds `BufferPoolManager::NewPage`: allocate a fresh page id, take a frame
from the back of the free list, or else evict (returning the null result
when the replacer has no victim, the already-allocated id leaking), write
back a dirty victim and drop the old occupant's table entry, then install
the new page. -/
def newPage (s : BPM) : Option (Option Int × BPM) :=
  let pid := s.nextPageId
  let s0 := { s with nextPageId := s.nextPageId + 1 }
  match s0.freeList.getLast? with
  | some frame =>
    let s1 := { s0 with freeList := s0.freeList.dropLast }
    match installPage s1 frame pid with
    | none => none
    | some s2 => some (some pid, s2)
  | none =>
    match evictR s0.repl with
    | (none, r) => some (none, { s0 with repl := r })
    | (some frame, r) =>
      let s1 := { s0 with repl := r }
      let s2 :=
        if (s1.pages frame).dirty then
          { s1 with pages := updFn s1.pages frame { s1.pages frame with dirty := false } }
        else s1
      let s3 := { s2 with pageTable := eraseP s2.pageTable (s2.pages frame).pageId }
      match installPage s3 frame pid with
      | none => none
      | some s4 => some (some pid, s4)

/-- Embeds `BufferPoolManager::FetchPage`: on a hit, bump the pin count, record
an access and mark non-evictable, returning the frame; on a miss, obtain a
frame as `NewPage` does and install the fetched page (the disk read is
unmodelled).  The inner `none` is the C++ `nullptr` result. -/
def fetchPage (s : BPM) (pid : Int) : Option (Option Int × BPM) :=
  match lookupP s.pageTable pid with
  | some frame =>
    let p := s.pages frame
    let s1 := { s with pages := updFn s.pages frame { p with pinCount := p.pinCount + 1 } }
    match recordAccessR s1.repl frame with
    | none => none
    | some r1 =>
      match setEvictableR r1 frame false with
      | none => none
      | some r2 => some (some frame, { s1 with repl := r2 })
  | none =>
    match s.freeList.getLast? with
    | some frame =>
      let s1 := { s with freeList := s.freeList.dropLast }
      match installPage s1 frame pid with
      | none => none
      | some s2 => some (some frame, s2)
    | none =>
      match evictR s.repl with
      | (none, r) => some (none, { s with repl := r })
      | (some frame, r) =>
        let s1 := { s with repl := r }
        let s2 :=
          if (s1.pages frame).dirty then
            { s1 with pages := updFn s1.pages frame { s1.pages frame with dirty := false } }
          else s1
        let s3 := { s2 with pageTable := eraseP s2.pageTable (s2.pages frame).pageId }
        match installPage s3 frame pid with
        | none => none
        | some s4 => some (some frame, s4)

/-- Embeds `BufferPoolManager::UnpinPage`: reject the sentinel id and non-resident
pages; then overwrite the frame's dirty flag with the caller's hint
(`pages_[frame_id].is_dirty_ = is_dirty`, before the pin check); if the
pin count is positive, decrement it and mark the frame evictable when it
reaches zero, returning `true`; otherwise return `false` (the dirty flag
stays overwritten). -/
def unpinPage (s : BPM) (pid : Int) (hint : Bool) : Option (Bool × BPM) :=
  if pid = -1 then some (false, s)
  else
    match lookupP s.pageTable pid with
    | none => some (false, s)
    | some frame =>
      let p := s.pages frame
      let s1 := { s with pages := updFn s.pages frame { p with dirty := hint } }
      if p.pinCount > 0 then
        let s2 := { s1 with
          pages := updFn s1.pages frame { p with dirty := hint, pinCount := p.pinCount - 1 } }
        if p.pinCount - 1 = 0 then
          match setEvictableR s2.repl frame true with
          | none => none
          | some r => some (true, { s2 with repl := r })
        else some (true, s2)
      else some (false, s1)

/-- Embeds `BufferPoolManager::DeletePage` (the source takes no latch here —
irrelevant to this sequential model): absent pages report `true`; a pinned
page reports `false`; otherwise write back if dirty (unmodelled beyond the
flag), reset the frame metadata, drop the table entry, remove the frame
from the replacer, push **the page id** onto the free list
(`free_list_.push_back(page_id)`), deallocate the id — and return
`false`. -/
def deletePage (s : BPM) (pid : Int) : Option (Bool × BPM) :=
  match lookupP s.pageTable pid with
  | none => some (true, s)
  | some frame =>
    if (s.pages frame).pinCount ≠ 0 then some (false, s)
    else
      let s1 := { s with pages := updFn s.pages frame ⟨-1, 0, false⟩ }
      let s2 := { s1 with pageTable := eraseP s1.pageTable pid }
      match removeR s2.repl frame with
      | none => none
      | some r => some (false, { s2 with repl := r, freeList := s2.freeList ++ [pid] })

/-- Embeds `BufferPoolManager::FetchPageRead`: calls `FetchPage` and immediately
latches the returned page (`page->RLatch()`) with no null check — a null
result is dereferenced, rendered as `none`. -/
def fetchPageRead (s : BPM) (pid : Int) : Option (Int × BPM) :=
  match fetchPage s pid with
  | some (some frame, s1) => some (frame, s1)
  | some (none, _) => none
  | none => none

/-- Embeds `BufferPoolManager::FetchPageWrite`: same shape as `FetchPageRead`
with the exclusive latch (`page->WLatch()`), equally unguarded. -/
def fetchPageWrite (s : BPM) (pid : Int) : Option (Int × BPM) :=
  match fetchPage s pid with
  | some (some frame, s1) => some (frame, s1)
  | some (none, _) => none
  | none => none

/-- A pool of one frame (K = 2): create page 0, unpin it dirty, fetch it
again (pin 1, dirty still set), then unpin it with `dirty_hint = false`. -/
def runC3 : Option BPM := do
  let (_, s1) ← newPage (initBPM 1 2)
  let (_, s2) ← unpinPage s1 0 true
  let (_, s3) ← fetchPage s2 0
  let (_, s4) ← unpinPage s3 0 false
  pure s4

/-- Claim C3 (code bug): unpinning a resident, pinned, already-dirty page
with `dirty_hint = false` leaves the frame **clean** — `UnpinPage` stores
the hint over the flag instead of OR-ing — where the claim requires
`dirty = dirty || dirty_hint = true`.  (The decrement to `pin_count = 0`
does happen.) -/
theorem unpin_clears_dirty_flag :
    runC3.map (fun s =>
        ((s.pages 0).dirty, (s.pages 0).pinCount, lookupP s.pageTable 0))
      = some (false, 0, some 0) := by
  rfl

/-- A pool of one frame: create page 0, unpin it, delete it. -/
def runC5 : Option (Bool × BPM) := do
  let (_, s1) ← newPage (initBPM 1 2)
  let (_, s2) ← unpinPage s1 0 false
  deletePage s2 0

/-- Claim C5 (code bug): deleting a resident, unpinned page performs the
deletion (the page-table entry is gone and the frame is back on the free
list) yet `DeletePage` returns `false`, where the claim requires `true` on
success. -/
theorem deletePage_returns_false_on_success :
    runC5.map (fun r => (r.1, lookupP r.2.pageTable 0, r.2.freeList.length))
      = some (false, none, 1) := by
  rfl

/-- A pool of one frame: create/unpin/delete page 0, then create/unpin/
delete page 1 (which the free-list bug has placed in frame 0). -/
def runC6 : Option BPM := do
  let (_, s1) ← newPage (initBPM 1 2)
  let (_, s2) ← unpinPage s1 0 false
  let (_, s3) ← deletePage s2 0
  let (_, s4) ← newPage s3
  let (_, s5) ← unpinPage s4 1 false
  let (_, s6) ← deletePage s5 1
  pure s6

/-- Claim C6 (code bug): after deleting page 1 (resident in frame 0 of a
one-frame pool), the free list holds `[1]` — `DeletePage` pushed the
**page id**, not the frame index — so the free list contains a value that
is not a valid frame index (`1 ≥ N = 1`). -/
theorem deletePage_frees_page_id :
    runC6.map (fun s =>
        (s.freeList, s.poolSize, s.freeList.all (fun f => f < (s.poolSize : Int))))
      = some ([1], 1, false) := by
  rfl

/-- Claim C9: calling `unpin_page` on a resident page whose pin count is
already zero returns `false`, but the frame's dirty flag has already been
overwritten with the caller's hint — the failing call is not
state-preserving. -/
theorem unpin_zero_pin_overwrites_dirty (s : BPM) (pid frame : Int)
    (hint : Bool) (hpid : pid ≠ -1)
    (hres : lookupP s.pageTable pid = some frame)
    (hpin : (s.pages frame).pinCount = 0) :
    (unpinPage s pid hint).map Prod.fst = some false
    ∧ (unpinPage s pid hint).map
        (fun r => ((r.2.pages frame).dirty, (r.2.pages frame).pinCount))
      = some (hint, 0) := by
  simp [unpinPage, hpid, hres, hpin, updFn]

/-- The pool state reached by `newPage (initBPM 1 2)` followed by
`unpinPage _ 0 false`: page 0 resident in frame 0, pin count zero,
clean, evictable. -/
def sU : BPM :=
  { poolSize := 1
    pages := fun f => if f = 0 then ⟨0, 0, false⟩ else ⟨-1, 0, false⟩
    pageTable := [(0, 0)]
    freeList := []
    repl :=
      { replacerSize := 1
        k := 2
        historyList := [0]
        historyMap := [0]
        cacheList := []
        cacheMap := []
        useCount := fun f => if f = 0 then 1 else 0
        isAccessible := fun f => f == 0
        currSize := 1 }
    nextPageId := 1 }

/-- Witness for `unpin_zero_pin_overwrites_dirty`: unpinning resident,
already-unpinned page 0 of `sU` with hint `true` returns `false` and
leaves the frame marked dirty. -/
theorem unpin_zero_pin_overwrites_dirty_witness :
    ((0 : Int) ≠ -1) ∧ lookupP sU.pageTable 0 = some 0
    ∧ (sU.pages 0).pinCount = 0
    ∧ (unpinPage sU 0 true).map Prod.fst = some false
    ∧ (unpinPage sU 0 true).map
        (fun r => ((r.2.pages 0).dirty, (r.2.pages 0).pinCount))
      = some (true, 0) := by
  have h := unpin_zero_pin_overwrites_dirty sU 0 0 true (by decide) rfl rfl
  exact ⟨by decide, rfl, rfl, h.1, h.2⟩

/-- Claim C10: whenever `FetchPage` reports no frame (the inner `none`,
i.e. the C++ `nullptr`), both guard-returning variants crash on the null
page pointer (`page->RLatch()` / `page->WLatch()`) instead of returning an
empty guard. -/
theorem fetch_guard_latches_unconditionally (s : BPM) (pid : Int) (s1 : BPM)
    (h : fetchPage s pid = some (none, s1)) :
    fetchPageRead s pid = none ∧ fetchPageWrite s pid = none := by
  simp [fetchPageRead, fetchPageWrite, h]

/-- The pool state reached by `newPage (initBPM 1 2)`: page 0 pinned in
the only frame, free list empty, nothing evictable — `FetchPage` of any
other page must report no frame. -/
def sF : BPM :=
  { poolSize := 1
    pages := fun f => if f = 0 then ⟨0, 1, false⟩ else ⟨-1, 0, false⟩
    pageTable := [(0, 0)]
    freeList := []
    repl :=
      { replacerSize := 1
        k := 2
        historyList := [0]
        historyMap := [0]
        cacheList := []
        cacheMap := []
        useCount := fun f => if f = 0 then 1 else 0
        isAccessible := fun _ => false
        currSize := 0 }
    nextPageId := 1 }

/-- Witness for `fetch_guard_latches_unconditionally`: fetching absent
page 5 in the exhausted pool `sF` yields `nullptr`, and both guard
variants crash. -/
theorem fetch_guard_latches_unconditionally_witness :
    fetchPage sF 5 = some (none, sF)
    ∧ fetchPageRead sF 5 = none ∧ fetchPageWrite sF 5 = none := by
  have h : fetchPage sF 5 = some (none, sF) := rfl
  exact ⟨h, fetch_guard_latches_unconditionally sF 5 sF h⟩
